import Mathlib

/-!
Shallow embedding of the tiny-kube node liveness core:
`NodeStatus` and `NodeState` (include/tinykube/types.hpp), the
`NodeRegistry` operations (include/tinykube/node_registry.hpp), and the
coordinator-side protocol handlers `RegisterNode` / `StreamHeartbeats`
(src/control/main.cpp).  Machine `int64_t` timestamps are modelled as
`Int`; the registry's `unordered_map<string, NodeState>` is modelled as
an association list `List (String × NodeState)` keyed by node name.
-/

/-- The C++ `enum class NodeStatus` from types.hpp. -/
inductive NodeStatus where
  | RESERVED
  | READY
  | NOT_READY
  | SUSPECT
  | UNKNOWN
deriving DecidableEq

/-- The C++ `struct NodeState` from types.hpp. -/
structure NodeState where
  name : String
  peer : String
  last_seen_ms : Int
  status : NodeStatus
deriving DecidableEq

/-- Method `NodeState::is_healthy`. -/
def NodeState.is_healthy (s : NodeState) : Bool :=
  decide (s.status = NodeStatus.READY)

/-- Method `NodeState::is_suspect(current_time_ms, timeout_ms)` (default timeout 30000). -/
def NodeState.is_suspect (s : NodeState) (current_time_ms timeout_ms : Int) : Bool :=
  decide (current_time_ms - s.last_seen_ms > timeout_ms)

/-- Method `NodeState::is_not_ready(current_time_ms, not_ready_timeout_ms)` (default 10000). -/
def NodeState.is_not_ready (s : NodeState) (current_time_ms not_ready_timeout_ms : Int) : Bool :=
  decide (current_time_ms - s.last_seen_ms > not_ready_timeout_ms)

/-- The registry map `unordered_map<string, NodeState>` as an association list. -/
abbrev Registry := List (String × NodeState)

/-- Membership test `nodes_.contains(node_name)`, as used by `touch` / `exists` / `StreamHeartbeats`. -/
def containsName (r : Registry) (node_name : String) : Bool :=
  r.any (fun p => p.1 == node_name)

/-- Operation `NodeRegistry::upsert`: `nodes_[node.name] = node` — replace the entry keyed by
`node.name` when present, otherwise insert a new one. -/
def upsert (r : Registry) (node : NodeState) : Registry :=
  if containsName r node.name then
    r.map (fun p => if p.1 == node.name then (p.1, node) else p)
  else
    (node.name, node) :: r

/-- Operation `NodeRegistry::touch`: when an entry keyed by `node_name` exists, set its
`last_seen_ms = now_ms` and `status = READY`; otherwise do nothing. -/
def touch (r : Registry) (node_name : String) (now_ms : Int) : Registry :=
  if containsName r node_name then
    r.map (fun p =>
      if p.1 == node_name then
        (p.1, { p.2 with last_seen_ms := now_ms, status := NodeStatus.READY })
      else p)
  else r

/-- Loop body of `NodeRegistry::sweep` applied to one entry:
`if (state.is_not_ready(...)) status = NOT_READY; else if (state.is_suspect(...)) status = SUSPECT;`. -/
def sweepEntry (now_ms suspect_timeout_ms not_ready_timeout_ms : Int)
    (state : NodeState) : NodeState :=
  if state.is_not_ready now_ms not_ready_timeout_ms then
    { state with status := NodeStatus.NOT_READY }
  else if state.is_suspect now_ms suspect_timeout_ms then
    { state with status := NodeStatus.SUSPECT }
  else state

/-- Operation `NodeRegistry::sweep(now_ms, suspect_timeout_ms, not_ready_timeout_ms)`
(C++ defaults: 30000 and 10000): recompute every entry's status in one pass. -/
def sweep (r : Registry) (now_ms suspect_timeout_ms not_ready_timeout_ms : Int) : Registry :=
  r.map (fun p => (p.1, sweepEntry now_ms suspect_timeout_ms not_ready_timeout_ms p.2))

/-- Operation `NodeRegistry::remove`: erase the entry keyed by `node_name`; the Bool reports
whether a deletion occurred (`nodes_.erase(node_name) > 0`). -/
def remove (r : Registry) (node_name : String) : Registry × Bool :=
  (r.filter (fun p => !(p.1 == node_name)), containsName r node_name)

/-- Operation `NodeRegistry::size`. -/
def size (r : Registry) : Nat := r.length

/-- Operation `NodeRegistry::snapshot`: a copy of all current entries. -/
def snapshot (r : Registry) : List NodeState := r.map (fun p => p.2)

/-- The `RegisterResponse` message: `accepted` flag and `reason` text. -/
structure RegisterResponse where
  accepted : Bool
  reason : String
deriving DecidableEq

/-- Handler `ControlPlaneServiceImpl::RegisterNode`: reject an empty node name without touching
the registry; otherwise upsert a fresh `READY` entry stamped with the coordinator's
current time `now_ms` and the transport peer address. -/
def registerNode (r : Registry) (node_name peer : String) (now_ms : Int) :
    Registry × RegisterResponse :=
  if node_name = "" then
    (r, { accepted := false, reason := "Node name cannot be empty" })
  else
    (upsert r { name := node_name, peer := peer, last_seen_ms := now_ms,
                status := NodeStatus.READY },
     { accepted := true, reason := "Welcome to TinyKube cluster!" })

/-- One message of the heartbeat stream together with the coordinator clock reading
`coordinator_now_ms` (`tinykube::now_ms()`) taken when it is processed;
`now_unix_ms` is the client-supplied timestamp carried by the `Heartbeat` proto. -/
structure HeartbeatEvent where
  node_name : String
  now_unix_ms : Int
  coordinator_now_ms : Int

/-- Body of the `StreamHeartbeats` read loop for one heartbeat: a heartbeat from an
unregistered node is skipped (`continue`), otherwise the entry is touched with the
coordinator's own current time.  The client timestamp is only printed, never used. -/
def handleHeartbeat (r : Registry) (node_name : String)
    (client_now_unix_ms coordinator_now_ms : Int) : Registry :=
  if containsName r node_name then touch r node_name coordinator_now_ms else r

/-- Handler `ControlPlaneServiceImpl::StreamHeartbeats`: process the inbound heartbeat
sequence in order. -/
def processHeartbeats (r : Registry) (events : List HeartbeatEvent) : Registry :=
  events.foldl
    (fun acc ev => handleHeartbeat acc ev.node_name ev.now_unix_ms ev.coordinator_now_ms) r

/-- The operations reachable through the coordinator: registration, heartbeat touch,
removal, and the periodic sweep with the C++ default thresholds (30000, 10000). -/
inductive Op where
  | register (node_name peer : String) (now_ms : Int)
  | touchOp (node_name : String) (now_ms : Int)
  | removeOp (node_name : String)
  | sweepDefault (now_ms : Int)

/-- Apply one operation to the registry. -/
def applyOp (r : Registry) : Op → Registry
  | Op.register n p now => (registerNode r n p now).1
  | Op.touchOp n now => touch r n now
  | Op.removeOp n => (remove r n).1
  | Op.sweepDefault now => sweep r now 30000 10000

/-- Run a sequence of operations starting from the empty registry. -/
def runOps (ops : List Op) : Registry := ops.foldl applyOp []

/-! ### Helper lemmas shared by the claim theorems -/

/-- Rewriting `sweepEntry` with propositional guards on the elapsed time. -/
theorem sweepEntry_eq (now_ms ts tnr : Int) (e : NodeState) :
    sweepEntry now_ms ts tnr e =
      if now_ms - e.last_seen_ms > tnr then { e with status := NodeStatus.NOT_READY }
      else if now_ms - e.last_seen_ms > ts then { e with status := NodeStatus.SUSPECT }
      else e := by
  simp [sweepEntry, NodeState.is_not_ready, NodeState.is_suspect]

/-- With the default thresholds (suspect 30000, not-ready 10000) the sweep loop body
either writes `NOT_READY` or leaves the status alone. -/
theorem sweepEntry_default_status (now_ms : Int) (e : NodeState) :
    (sweepEntry now_ms 30000 10000 e).status = NodeStatus.NOT_READY
    ∨ (sweepEntry now_ms 30000 10000 e).status = e.status := by
  rw [sweepEntry_eq]
  split
  · left; rfl
  · split
    · next h1 h2 => exfalso; omega
    · right; rfl

/-- The sweep loop body never changes `name`, `peer` or `last_seen_ms`, and the
resulting status is the old one, `NOT_READY`, or `SUSPECT`. -/
theorem sweepEntry_frame (now_ms ts tnr : Int) (e : NodeState) :
    (sweepEntry now_ms ts tnr e).name = e.name
    ∧ (sweepEntry now_ms ts tnr e).peer = e.peer
    ∧ (sweepEntry now_ms ts tnr e).last_seen_ms = e.last_seen_ms
    ∧ ((sweepEntry now_ms ts tnr e).status = e.status
        ∨ (sweepEntry now_ms ts tnr e).status = NodeStatus.NOT_READY
        ∨ (sweepEntry now_ms ts tnr e).status = NodeStatus.SUSPECT) := by
  rw [sweepEntry_eq]
  split
  · exact ⟨rfl, rfl, rfl, Or.inr (Or.inl rfl)⟩
  · split
    · exact ⟨rfl, rfl, rfl, Or.inr (Or.inr rfl)⟩
    · exact ⟨rfl, rfl, rfl, Or.inl rfl⟩

/-- Pointwise form of `touch`: it rewrites exactly the entries keyed by `node_name`,
whether or not the key is present. -/
theorem touch_eq_map (r : Registry) (node_name : String) (now_ms : Int) :
    touch r node_name now_ms = r.map (fun p =>
      if p.1 == node_name then
        (p.1, { p.2 with last_seen_ms := now_ms, status := NodeStatus.READY })
      else p) := by
  unfold touch
  split
  · rfl
  · next hc =>
    have hall : ∀ p ∈ r, ¬ (p.1 == node_name) = true := by
      intro p hp hbeq
      exact hc (List.any_eq_true.mpr ⟨p, hp, hbeq⟩)
    have hmap : r.map (fun p =>
        if p.1 == node_name then
          (p.1, { p.2 with last_seen_ms := now_ms, status := NodeStatus.READY })
        else p) = r.map id := by
      apply List.map_congr_left
      intro p hp
      have hne : ¬ p.1 = node_name := fun he => hall p hp (by simp [he])
      simp [hne]
    rw [hmap, List.map_id]

/-- The heartbeat loop body with the outer registration check collapses to `touch`:
when the node is absent both are no-ops, when present both update the entry. -/
theorem handleHeartbeat_eq_touch (r : Registry) (node_name : String)
    (client_ts coordinator_now_ms : Int) :
    handleHeartbeat r node_name client_ts coordinator_now_ms
      = touch r node_name coordinator_now_ms := by
  unfold handleHeartbeat
  split
  · rfl
  · next hc => unfold touch; rw [if_neg hc]

/-- The heartbeat loop body never reads the client-supplied timestamp. -/
theorem handleHeartbeat_client_ts_irrelevant (r : Registry) (node_name : String)
    (cts1 cts2 coordinator_now_ms : Int) :
    handleHeartbeat r node_name cts1 coordinator_now_ms
      = handleHeartbeat r node_name cts2 coordinator_now_ms := rfl

/-- The freshly upserted pair is a member of the updated registry. -/
theorem mem_upsert_self (r : Registry) (node : NodeState) :
    (node.name, node) ∈ upsert r node := by
  unfold upsert
  split
  · next hc =>
    obtain ⟨w, hw, hweq⟩ := List.any_eq_true.mp hc
    rw [List.mem_map]
    refine ⟨w, hw, ?_⟩
    have hw1 : w.1 = node.name := beq_iff_eq.mp hweq
    simp [hweq, hw1]
  · exact List.mem_cons_self _ _

/-- Applying `upsert` on a present key replaces in place: the size does not change. -/
theorem size_upsert_present (r : Registry) (node : NodeState)
    (hc : containsName r node.name = true) :
    size (upsert r node) = size r := by
  unfold upsert
  rw [if_pos hc]
  simp [size]

/-- Applying `upsert` on an absent key inserts: the size grows by one. -/
theorem size_upsert_absent (r : Registry) (node : NodeState)
    (hc : containsName r node.name = false) :
    size (upsert r node) = size r + 1 := by
  unfold upsert
  rw [if_neg (by simp [hc])]
  simp [size]

/-- Every member of `upsert r node` is an old member or carries `node` as its state. -/
theorem mem_upsert (r : Registry) (node : NodeState) (p : String × NodeState)
    (hp : p ∈ upsert r node) : p ∈ r ∨ p.2 = node := by
  unfold upsert at hp
  split at hp
  · obtain ⟨w, hw, hweq⟩ := List.mem_map.mp hp
    by_cases hw1 : (w.1 == node.name) = true
    · right
      rw [if_pos hw1] at hweq
      rw [← hweq]
    · left
      rw [if_neg hw1] at hweq
      rw [← hweq]
      exact hw
  · rcases List.mem_cons.mp hp with h | h
    · right; rw [h]
    · left; exact h

/-- Every member of `touch r n now` is an old member or has status `READY`. -/
theorem mem_touch (r : Registry) (node_name : String) (now_ms : Int)
    (p : String × NodeState) (hp : p ∈ touch r node_name now_ms) :
    p ∈ r ∨ p.2.status = NodeStatus.READY := by
  rw [touch_eq_map] at hp
  obtain ⟨w, hw, hweq⟩ := List.mem_map.mp hp
  by_cases hw1 : (w.1 == node_name) = true
  · right
    rw [if_pos hw1] at hweq
    rw [← hweq]
  · left
    rw [if_neg hw1] at hweq
    rw [← hweq]
    exact hw

/-- The per-entry invariant "no entry is SUSPECT". -/
def RegNoSuspect (r : Registry) : Prop :=
  ∀ p ∈ r, p.2.status ≠ NodeStatus.SUSPECT

/-- Each coordinator operation (with default sweep thresholds) preserves the
no-SUSPECT invariant. -/
theorem regNoSuspect_applyOp (r : Registry) (op : Op) (h : RegNoSuspect r) :
    RegNoSuspect (applyOp r op) := by
  cases op with
  | register n pr now =>
    intro p hp
    simp only [applyOp] at hp
    unfold registerNode at hp
    split at hp
    · exact h p hp
    · rcases mem_upsert _ _ p hp with hmem | heq
      · exact h p hmem
      · rw [heq]; simp
  | touchOp n now =>
    intro p hp
    simp only [applyOp] at hp
    rcases mem_touch r n now p hp with hmem | hst
    · exact h p hmem
    · rw [hst]; decide
  | removeOp n =>
    intro p hp
    simp only [applyOp, remove] at hp
    exact h p (List.mem_filter.mp hp).1
  | sweepDefault now =>
    intro p hp
    simp only [applyOp, sweep] at hp
    obtain ⟨w, hw, hweq⟩ := List.mem_map.mp hp
    rw [← hweq]
    rcases sweepEntry_default_status now w.2 with hs | hs
    · rw [hs]; decide
    · rw [hs]; exact h w hw

/-- Folding any operation list over a registry preserves the no-SUSPECT invariant. -/
theorem regNoSuspect_foldl (ops : List Op) :
    ∀ r : Registry, RegNoSuspect r → RegNoSuspect (ops.foldl applyOp r) := by
  induction ops with
  | nil => intro r h; exact h
  | cons op t ih => intro r h; exact ih _ (regNoSuspect_applyOp r op h)

/-! ### Claim theorems -/

/-- C1: with the default thresholds (`suspect_timeout = 30000`, `not_ready_timeout =
10000`), `sweep` never assigns `SUSPECT` to any entry of any registry — every entry
of the swept registry that is not `SUSPECT` beforehand is not `SUSPECT` afterwards —
and consequently, starting from the empty registry, no sequence of registration,
touch, remove, and default-threshold sweep operations ever produces an entry whose
status is `SUSPECT`. -/
theorem sweep_default_never_suspect :
    (∀ (r : Registry) (now_ms : Int),
        (∀ q ∈ r, q.2.status ≠ NodeStatus.SUSPECT) →
        ∀ p ∈ sweep r now_ms 30000 10000, p.2.status ≠ NodeStatus.SUSPECT)
    ∧ ∀ (ops : List Op), ∀ p ∈ runOps ops, p.2.status ≠ NodeStatus.SUSPECT := by
  constructor
  · intro r now_ms hr p hp
    simp only [sweep] at hp
    obtain ⟨w, hw, hweq⟩ := List.mem_map.mp hp
    rw [← hweq]
    rcases sweepEntry_default_status now_ms w.2 with hs | hs
    · rw [hs]; decide
    · rw [hs]; exact hr w hw
  · intro ops p hp
    exact regNoSuspect_foldl ops [] (fun q hq => absurd hq (List.not_mem_nil q)) p hp

/-- Witness for C1 at concrete inputs: a healthy single-node registry swept with the
default thresholds, and the run register("a") then default sweep at time 99999. -/
theorem sweep_default_never_suspect_witness :
    ("a", ({ name := "a", peer := "p", last_seen_ms := 0,
             status := NodeStatus.READY } : NodeState)).2.status ≠ NodeStatus.SUSPECT
    ∧ ("a", ({ name := "a", peer := "p", last_seen_ms := 0,
               status := NodeStatus.NOT_READY } : NodeState)).2.status
        ≠ NodeStatus.SUSPECT :=
  ⟨sweep_default_never_suspect.1
      [("a", { name := "a", peer := "p", last_seen_ms := 0, status := NodeStatus.READY })]
      5 (by decide)
      ("a", { name := "a", peer := "p", last_seen_ms := 0, status := NodeStatus.READY })
      (by decide),
   sweep_default_never_suspect.2 [Op.register "a" "p" 0, Op.sweepDefault 99999]
      ("a", { name := "a", peer := "p", last_seen_ms := 0, status := NodeStatus.NOT_READY })
      (by decide)⟩

/-- C2: for an entry with `last_seen_ms = t0`, sweeping with the default thresholds at
`t0 + 9999` leaves the entry unchanged, sweeping at `t0 + 10001` makes it `NOT_READY`
(both per entry and inside any registry containing it), and in general the sweep body
writes `NOT_READY` exactly when `now - last_seen_ms > not_ready_timeout` — when that
bound is not exceeded it performs a `SUSPECT` write or no write at all. -/
theorem sweep_not_ready_boundary (e : NodeState) (t0 : Int) (h : e.last_seen_ms = t0) :
    sweepEntry (t0 + 9999) 30000 10000 e = e
    ∧ (sweepEntry (t0 + 10001) 30000 10000 e).status = NodeStatus.NOT_READY
    ∧ (∀ (r : Registry) (nm : String), (nm, e) ∈ r →
        (nm, e) ∈ sweep r (t0 + 9999) 30000 10000
        ∧ (nm, { e with status := NodeStatus.NOT_READY })
            ∈ sweep r (t0 + 10001) 30000 10000)
    ∧ ∀ (now_ms ts tnr : Int),
        (now_ms - e.last_seen_ms > tnr →
          sweepEntry now_ms ts tnr e = { e with status := NodeStatus.NOT_READY })
        ∧ (¬ now_ms - e.last_seen_ms > tnr →
          (sweepEntry now_ms ts tnr e = { e with status := NodeStatus.SUSPECT }
              ∧ now_ms - e.last_seen_ms > ts)
            ∨ sweepEntry now_ms ts tnr e = e) := by
  have h9999 : sweepEntry (t0 + 9999) 30000 10000 e = e := by
    rw [sweepEntry_eq, h]
    have h1 : ¬ (t0 + 9999 - t0 > (10000 : Int)) := by omega
    have h2 : ¬ (t0 + 9999 - t0 > (30000 : Int)) := by omega
    rw [if_neg h1, if_neg h2]
  have h10001 : sweepEntry (t0 + 10001) 30000 10000 e
      = { e with status := NodeStatus.NOT_READY } := by
    rw [sweepEntry_eq, h]
    have h1 : t0 + 10001 - t0 > (10000 : Int) := by omega
    rw [if_pos h1]
  refine ⟨h9999, by rw [h10001], ?_, ?_⟩
  · intro r nm hmem
    constructor
    · have := List.mem_map_of_mem
        (fun p => (p.1, sweepEntry (t0 + 9999) 30000 10000 p.2)) hmem
      simpa [sweep, h9999] using this
    · have := List.mem_map_of_mem
        (fun p => (p.1, sweepEntry (t0 + 10001) 30000 10000 p.2)) hmem
      simpa [sweep, h10001] using this
  · intro now_ms ts tnr
    constructor
    · intro hgt
      rw [sweepEntry_eq, if_pos hgt]
    · intro hle
      rw [sweepEntry_eq, if_neg hle]
      by_cases hs : now_ms - e.last_seen_ms > ts
      · left; rw [if_pos hs]; exact ⟨rfl, hs⟩
      · right; rw [if_neg hs]

/-- Witness for C2 at a concrete entry with `last_seen_ms = 100`. -/
theorem sweep_not_ready_boundary_witness :
    sweepEntry (100 + 9999) 30000 10000
        { name := "a", peer := "p", last_seen_ms := 100, status := NodeStatus.READY }
      = { name := "a", peer := "p", last_seen_ms := 100, status := NodeStatus.READY }
    ∧ (sweepEntry (100 + 10001) 30000 10000
        { name := "a", peer := "p", last_seen_ms := 100,
          status := NodeStatus.READY }).status = NodeStatus.NOT_READY :=
  ⟨(sweep_not_ready_boundary
      { name := "a", peer := "p", last_seen_ms := 100, status := NodeStatus.READY }
      100 rfl).1,
   (sweep_not_ready_boundary
      { name := "a", peer := "p", last_seen_ms := 100, status := NodeStatus.READY }
      100 rfl).2.1⟩

/-- C10: the sweep body writes `SUSPECT` exactly when
`suspect_timeout < now - last_seen_ms ≤ not_ready_timeout`; outside that window it
performs a `NOT_READY` write or no write at all; hence whenever
`not_ready_timeout ≤ suspect_timeout` (in particular with equal thresholds), sweep
never turns a non-SUSPECT entry into a `SUSPECT` one. -/
theorem sweep_suspect_characterization (now_ms ts tnr : Int) (e : NodeState) :
    (ts < now_ms - e.last_seen_ms ∧ now_ms - e.last_seen_ms ≤ tnr →
      sweepEntry now_ms ts tnr e = { e with status := NodeStatus.SUSPECT })
    ∧ (¬ (ts < now_ms - e.last_seen_ms ∧ now_ms - e.last_seen_ms ≤ tnr) →
      (sweepEntry now_ms ts tnr e = { e with status := NodeStatus.NOT_READY }
          ∧ now_ms - e.last_seen_ms > tnr)
        ∨ sweepEntry now_ms ts tnr e = e)
    ∧ (tnr ≤ ts → e.status ≠ NodeStatus.SUSPECT →
        (sweepEntry now_ms ts tnr e).status ≠ NodeStatus.SUSPECT) := by
  refine ⟨?_, ?_, ?_⟩
  · intro hwin
    have h1 : ¬ (now_ms - e.last_seen_ms > tnr) := by omega
    have h2 : now_ms - e.last_seen_ms > ts := by omega
    rw [sweepEntry_eq, if_neg h1, if_pos h2]
  · intro hout
    by_cases h1 : now_ms - e.last_seen_ms > tnr
    · left
      rw [sweepEntry_eq, if_pos h1]
      exact ⟨rfl, h1⟩
    · right
      have h2 : ¬ (now_ms - e.last_seen_ms > ts) := by omega
      rw [sweepEntry_eq, if_neg h1, if_neg h2]
  · intro hord hst
    rw [sweepEntry_eq]
    by_cases h1 : now_ms - e.last_seen_ms > tnr
    · rw [if_pos h1]; simp
    · have h2 : ¬ (now_ms - e.last_seen_ms > ts) := by omega
      rw [if_neg h1, if_neg h2]
      exact hst

/-- Witness for C10: elapsed 5000 with thresholds (3000, 10000) yields a `SUSPECT`
write, and with equal thresholds (10000, 10000) the result is never `SUSPECT`. -/
theorem sweep_suspect_characterization_witness :
    sweepEntry 5000 3000 10000
        { name := "a", peer := "p", last_seen_ms := 0, status := NodeStatus.READY }
      = { name := "a", peer := "p", last_seen_ms := 0, status := NodeStatus.SUSPECT }
    ∧ (sweepEntry 5000 10000 10000
        { name := "a", peer := "p", last_seen_ms := 0,
          status := NodeStatus.READY }).status ≠ NodeStatus.SUSPECT :=
  ⟨(sweep_suspect_characterization 5000 3000 10000
      { name := "a", peer := "p", last_seen_ms := 0, status := NodeStatus.READY }).1
      (by decide),
   (sweep_suspect_characterization 5000 10000 10000
      { name := "a", peer := "p", last_seen_ms := 0, status := NodeStatus.READY }).2.2
      (by decide) (by decide)⟩

/-- C3 counterexample: a heartbeat for a registered node whose current status is
`NOT_READY` mutates the status field as well (`touch` forces `status = READY`), so
`last_seen_ms` is not the only field heartbeat processing mutates. -/
theorem heartbeat_status_mutation_counterexample :
    handleHeartbeat
        [("a", { name := "a", peer := "p", last_seen_ms := 0,
                 status := NodeStatus.NOT_READY })] "a" 5 7
      = [("a", { name := "a", peer := "p", last_seen_ms := 7,
                 status := NodeStatus.READY })]
    ∧ NodeStatus.READY ≠ NodeStatus.NOT_READY := by decide

/-- C3 amended: for every heartbeat processed for a registered node, `last_seen_ms`
and `status` are the only fields of that node's registry entry that the heartbeat
mutates (the status is forced to `READY`): the entry's `name` and `peer` are left
unchanged, and the entries of all other nodes are untouched. -/
theorem heartbeat_frame (r : Registry) (node_name : String)
    (client_ts coordinator_now_ms : Int) :
    List.Forall₂ (fun p q =>
        q.1 = p.1 ∧ q.2.name = p.2.name ∧ q.2.peer = p.2.peer
        ∧ (p.1 = node_name →
            q.2.last_seen_ms = coordinator_now_ms ∧ q.2.status = NodeStatus.READY)
        ∧ (p.1 ≠ node_name → q = p))
      r (handleHeartbeat r node_name client_ts coordinator_now_ms) := by
  rw [handleHeartbeat_eq_touch, touch_eq_map, List.forall₂_map_right_iff,
    List.forall₂_same]
  intro p hp
  by_cases hk : p.1 = node_name
  · simp [hk]
  · simp [hk]

/-- Witness for C3's amended theorem at a concrete one-node registry. -/
theorem heartbeat_frame_witness :
    List.Forall₂ (fun p q =>
        q.1 = p.1 ∧ q.2.name = p.2.name ∧ q.2.peer = p.2.peer
        ∧ (p.1 = "a" → q.2.last_seen_ms = 7 ∧ q.2.status = NodeStatus.READY)
        ∧ (p.1 ≠ "a" → q = p))
      [("a", { name := "a", peer := "p", last_seen_ms := 0,
               status := NodeStatus.NOT_READY })]
      (handleHeartbeat
        [("a", { name := "a", peer := "p", last_seen_ms := 0,
                 status := NodeStatus.NOT_READY })] "a" 5 7) :=
  heartbeat_frame
    [("a", { name := "a", peer := "p", last_seen_ms := 0,
             status := NodeStatus.NOT_READY })] "a" 5 7

/-- C4: `RegisterNode` with an empty identity returns `accepted = false` and leaves
the registry unchanged; with a non-empty identity it returns `accepted = true`,
upserts an entry keyed by the identity with `status = READY` and `last_seen_ms`
equal to the coordinator's current time, and grows the size by exactly one when the
identity was absent and by zero when it was present. -/
theorem registerNode_spec (r : Registry) (node_name peer : String) (now_ms : Int) :
    (node_name = "" →
      registerNode r node_name peer now_ms
        = (r, { accepted := false, reason := "Node name cannot be empty" }))
    ∧ (node_name ≠ "" →
        (registerNode r node_name peer now_ms).2.accepted = true
        ∧ (node_name, { name := node_name, peer := peer, last_seen_ms := now_ms,
                        status := NodeStatus.READY })
            ∈ (registerNode r node_name peer now_ms).1
        ∧ (containsName r node_name = false →
            size (registerNode r node_name peer now_ms).1 = size r + 1)
        ∧ (containsName r node_name = true →
            size (registerNode r node_name peer now_ms).1 = size r)) := by
  constructor
  · intro he
    unfold registerNode
    rw [if_pos he]
  · intro hne
    unfold registerNode
    rw [if_neg hne]
    refine ⟨rfl, mem_upsert_self r _, ?_, ?_⟩
    · intro hc
      exact size_upsert_absent r _ hc
    · intro hc
      exact size_upsert_present r _ hc

/-- Witness for C4: an empty-name rejection against the empty registry, a fresh
registration growing the size to one, and a re-registration keeping it at one. -/
theorem registerNode_spec_witness :
    registerNode [] "" "p" 3
      = ([], { accepted := false, reason := "Node name cannot be empty" })
    ∧ (registerNode [] "a" "p" 3).2.accepted = true
    ∧ size (registerNode [] "a" "p" 3).1 = size ([] : Registry) + 1
    ∧ size (registerNode
        [("a", { name := "a", peer := "p", last_seen_ms := 3,
                 status := NodeStatus.READY })] "a" "q" 9).1
      = size [("a", ({ name := "a", peer := "p", last_seen_ms := 3,
                       status := NodeStatus.READY } : NodeState))] :=
  ⟨(registerNode_spec [] "" "p" 3).1 rfl,
   ((registerNode_spec [] "a" "p" 3).2 (by decide)).1,
   ((registerNode_spec [] "a" "p" 3).2 (by decide)).2.2.1 (by decide),
   ((registerNode_spec
      [("a", { name := "a", peer := "p", last_seen_ms := 3,
               status := NodeStatus.READY })] "a" "q" 9).2 (by decide)).2.2.2
      (by decide)⟩

/-- C5: a heartbeat whose identity is absent from the registry leaves the registry
entirely unchanged (the processing function returns the registry itself, with no
error channel at all); a heartbeat whose identity is present invokes `touch` with the
coordinator's own current time, rewriting exactly the matching entry to
`last_seen_ms = coordinator time` and `status = READY` and leaving every other entry
untouched. -/
theorem streamHeartbeats_spec (r : Registry) (node_name : String)
    (client_ts coordinator_now_ms : Int) :
    handleHeartbeat r node_name client_ts coordinator_now_ms
      = touch r node_name coordinator_now_ms
    ∧ (containsName r node_name = false →
        handleHeartbeat r node_name client_ts coordinator_now_ms = r)
    ∧ (containsName r node_name = true →
        List.Forall₂ (fun p q =>
            (p.1 = node_name →
              q = (p.1, { p.2 with last_seen_ms := coordinator_now_ms,
                                   status := NodeStatus.READY }))
          ∧ (p.1 ≠ node_name → q = p))
          r (handleHeartbeat r node_name client_ts coordinator_now_ms)) := by
  refine ⟨handleHeartbeat_eq_touch r node_name client_ts coordinator_now_ms, ?_, ?_⟩
  · intro hc
    unfold handleHeartbeat
    rw [if_neg (by simp [hc])]
  · intro hc
    rw [handleHeartbeat_eq_touch, touch_eq_map, List.forall₂_map_right_iff,
      List.forall₂_same]
    intro p hp
    by_cases hk : p.1 = node_name
    · simp [hk]
    · simp [hk]

/-- Witness for C5: an unknown-node heartbeat is dropped, a known-node heartbeat
touches the entry with the coordinator time 7 (not the client timestamp 5). -/
theorem streamHeartbeats_spec_witness :
    handleHeartbeat
        [("a", { name := "a", peer := "p", last_seen_ms := 0,
                 status := NodeStatus.NOT_READY })] "b" 5 7
      = [("a", { name := "a", peer := "p", last_seen_ms := 0,
                 status := NodeStatus.NOT_READY })]
    ∧ List.Forall₂ (fun p q =>
          (p.1 = "a" →
            q = (p.1, { p.2 with last_seen_ms := 7, status := NodeStatus.READY }))
        ∧ (p.1 ≠ "a" → q = p))
        [("a", { name := "a", peer := "p", last_seen_ms := 0,
                 status := NodeStatus.NOT_READY })]
        (handleHeartbeat
          [("a", { name := "a", peer := "p", last_seen_ms := 0,
                   status := NodeStatus.NOT_READY })] "a" 5 7) :=
  ⟨(streamHeartbeats_spec
      [("a", { name := "a", peer := "p", last_seen_ms := 0,
               status := NodeStatus.NOT_READY })] "b" 5 7).2.1 (by decide),
   (streamHeartbeats_spec
      [("a", { name := "a", peer := "p", last_seen_ms := 0,
               status := NodeStatus.NOT_READY })] "a" 5 7).2.2 (by decide)⟩

/-- C6: two-run noninterference — two inbound heartbeat sequences that agree on every
heartbeat's node identity and on the coordinator's clock readings, but differ
arbitrarily in the client-supplied timestamps, drive any starting registry to
identical final states. -/
theorem heartbeat_noninterference (r : Registry) (evs1 evs2 : List HeartbeatEvent)
    (h : evs1.map (fun ev => (ev.node_name, ev.coordinator_now_ms))
       = evs2.map (fun ev => (ev.node_name, ev.coordinator_now_ms))) :
    processHeartbeats r evs1 = processHeartbeats r evs2 := by
  induction evs1 generalizing r evs2 with
  | nil =>
    cases evs2 with
    | nil => rfl
    | cons b t2 => simp at h
  | cons a t ih =>
    cases evs2 with
    | nil => simp at h
    | cons b t2 =>
      simp only [List.map_cons, List.cons.injEq] at h
      obtain ⟨hhead, htail⟩ := h
      have hname : a.node_name = b.node_name := congrArg Prod.fst hhead
      have hcoord : a.coordinator_now_ms = b.coordinator_now_ms :=
        congrArg Prod.snd hhead
      have hstep : handleHeartbeat r a.node_name a.now_unix_ms a.coordinator_now_ms
          = handleHeartbeat r b.node_name b.now_unix_ms b.coordinator_now_ms := by
        rw [hname, hcoord]
        exact handleHeartbeat_client_ts_irrelevant r b.node_name
          a.now_unix_ms b.now_unix_ms b.coordinator_now_ms
      show processHeartbeats
          (handleHeartbeat r a.node_name a.now_unix_ms a.coordinator_now_ms) t
        = processHeartbeats
          (handleHeartbeat r b.node_name b.now_unix_ms b.coordinator_now_ms) t2
      rw [hstep]
      exact ih _ _ htail

/-- Witness for C6: the same stream with client timestamps 1 and 999 produces the
same registry. -/
theorem heartbeat_noninterference_witness :
    processHeartbeats
        [("a", { name := "a", peer := "p", last_seen_ms := 0,
                 status := NodeStatus.NOT_READY })]
        [{ node_name := "a", now_unix_ms := 1, coordinator_now_ms := 50 }]
      = processHeartbeats
        [("a", { name := "a", peer := "p", last_seen_ms := 0,
                 status := NodeStatus.NOT_READY })]
        [{ node_name := "a", now_unix_ms := 999, coordinator_now_ms := 50 }] :=
  heartbeat_noninterference
    [("a", { name := "a", peer := "p", last_seen_ms := 0,
             status := NodeStatus.NOT_READY })]
    [{ node_name := "a", now_unix_ms := 1, coordinator_now_ms := 50 }]
    [{ node_name := "a", now_unix_ms := 999, coordinator_now_ms := 50 }]
    rfl

/-- C7: for every registry, time and thresholds, `sweep` neither adds nor removes
entries (keys and order are preserved), leaves every entry's `name`, `peer` and
`last_seen_ms` unchanged, and the only statuses it can newly assign are `NOT_READY`
and `SUSPECT` — whenever the swept status is `READY`, `RESERVED` or `UNKNOWN` it is
the entry's old status. -/
theorem sweep_frame (r : Registry) (now_ms ts tnr : Int) :
    size (sweep r now_ms ts tnr) = size r
    ∧ List.Forall₂ (fun p q =>
        q.1 = p.1 ∧ q.2.name = p.2.name ∧ q.2.peer = p.2.peer
        ∧ q.2.last_seen_ms = p.2.last_seen_ms
        ∧ (q.2.status = p.2.status ∨ q.2.status = NodeStatus.NOT_READY
            ∨ q.2.status = NodeStatus.SUSPECT)
        ∧ ((q.2.status = NodeStatus.READY ∨ q.2.status = NodeStatus.RESERVED
            ∨ q.2.status = NodeStatus.UNKNOWN) → q.2.status = p.2.status))
      r (sweep r now_ms ts tnr) := by
  constructor
  · simp [size, sweep]
  · rw [sweep, List.forall₂_map_right_iff, List.forall₂_same]
    intro p hp
    obtain ⟨hn, hpe, hl, hs⟩ := sweepEntry_frame now_ms ts tnr p.2
    refine ⟨rfl, hn, hpe, hl, hs, ?_⟩
    rcases hs with hs | hs | hs
    · intro _; exact hs
    · rw [hs]; intro hctr; rcases hctr with hctr | hctr | hctr <;> cases hctr
    · rw [hs]; intro hctr; rcases hctr with hctr | hctr | hctr <;> cases hctr

/-- C8: `touch` on an absent identity is a no-op returning the registry itself (size
and all entries unchanged, no error channel exists); `touch` on a present identity
keeps the size, rewrites exactly the matching entry to `last_seen_ms = now` and
`status = READY`, and leaves every other entry unchanged. -/
theorem touch_spec (r : Registry) (node_name : String) (now_ms : Int) :
    (containsName r node_name = false → touch r node_name now_ms = r)
    ∧ size (touch r node_name now_ms) = size r
    ∧ List.Forall₂ (fun p q =>
        q.1 = p.1
        ∧ (p.1 = node_name →
            q.2 = { p.2 with last_seen_ms := now_ms, status := NodeStatus.READY })
        ∧ (p.1 ≠ node_name → q = p))
      r (touch r node_name now_ms) := by
  refine ⟨?_, ?_, ?_⟩
  · intro hc
    unfold touch
    rw [if_neg (by simp [hc])]
  · rw [touch_eq_map]; simp [size]
  · rw [touch_eq_map, List.forall₂_map_right_iff, List.forall₂_same]
    intro p hp
    by_cases hk : p.1 = node_name
    · simp [hk]
    · simp [hk]

/-- Witness for C8: touching an absent identity "b" is a no-op; touching the present
identity "a" keeps the size. -/
theorem touch_spec_witness :
    touch [("a", { name := "a", peer := "p", last_seen_ms := 0,
                   status := NodeStatus.NOT_READY })] "b" 7
      = [("a", { name := "a", peer := "p", last_seen_ms := 0,
                 status := NodeStatus.NOT_READY })]
    ∧ size (touch [("a", { name := "a", peer := "p", last_seen_ms := 0,
                           status := NodeStatus.NOT_READY })] "a" 7)
      = size [("a", ({ name := "a", peer := "p", last_seen_ms := 0,
                       status := NodeStatus.NOT_READY } : NodeState))] :=
  ⟨(touch_spec [("a", { name := "a", peer := "p", last_seen_ms := 0,
                        status := NodeStatus.NOT_READY })] "b" 7).1 (by decide),
   (touch_spec [("a", { name := "a", peer := "p", last_seen_ms := 0,
                        status := NodeStatus.NOT_READY })] "a" 7).2.1⟩

/-- C9: round-trip — after `upsert state`, `snapshot` contains an entry equal to
`state` in all four fields. -/
theorem upsert_snapshot_roundtrip (r : Registry) (state : NodeState) :
    state ∈ snapshot (upsert r state)
    ∧ ∃ q ∈ snapshot (upsert r state),
        q.name = state.name ∧ q.peer = state.peer
        ∧ q.last_seen_ms = state.last_seen_ms ∧ q.status = state.status := by
  have hmem : state ∈ snapshot (upsert r state) := by
    unfold snapshot
    rw [List.mem_map]
    exact ⟨(state.name, state), mem_upsert_self r state, rfl⟩
  exact ⟨hmem, state, hmem, rfl, rfl, rfl, rfl⟩
